import Mathlib

/-!
Verification of the TheMovieDatabase provider
(`scanner/providers/implementations/themoviedatabase.py`).

The module is embedded shallowly: Python dicts become ordered association
lists with Python's insert-or-update semantics, raised exceptions become
`Except` errors, `async`/`await` is erased (each coroutine is a pure
function of its inputs and every `asyncio.gather` is determinized by index
order), and the remote HTTP service is an explicit collaborator value.
-/

set_option linter.unusedSectionVars false

namespace Tmdb

/-! ### Python dict model

A Python `dict` preserves insertion order; updating an existing key keeps
its position.  `PyDict` is the ordered association-list view of a dict.
-/

/-- Ordered association list modelling a Python dict. -/
abbrev PyDict (κ τ : Type) := List (κ × τ)

/-- Value stored for key `k` (first entry with that key), i.e. `d[k]`
returning `none` instead of raising `KeyError`. -/
def pyLookup [BEq κ] : PyDict κ τ → κ → Option τ
  | [], _ => none
  | (k1, v1) :: d, k => if k1 == k then some v1 else pyLookup d k

/-- Python `d[k] = v`: update in place when the key is present, append
otherwise. -/
def pyDictInsert [BEq κ] : PyDict κ τ → κ → τ → PyDict κ τ
  | [], k, v => [(k, v)]
  | (k1, v1) :: d, k, v =>
    if k1 == k then (k1, v) :: d else (k1, v1) :: pyDictInsert d k v

/-- The dict built by inserting a list of key-value pairs in order
(dict literals and dict comprehensions). -/
def pyDictOfPairs [BEq κ] (ps : List (κ × τ)) : PyDict κ τ :=
  ps.foldl (fun d p => pyDictInsert d p.1 p.2) []

section DictLemmas

variable {κ τ : Type} [BEq κ] [LawfulBEq κ]

theorem pyDictInsert_ne_nil (d : PyDict κ τ) (k : κ) (v : τ) :
    pyDictInsert d k v ≠ [] := by
  cases d with
  | nil => simp [pyDictInsert]
  | cons p d =>
    obtain ⟨k1, v1⟩ := p
    simp only [pyDictInsert]
    split <;> simp

theorem mem_keys_pyDictInsert {d : PyDict κ τ} {k a : κ} {v : τ} :
    a ∈ (pyDictInsert d k v).map Prod.fst ↔ a ∈ d.map Prod.fst ∨ a = k := by
  induction d with
  | nil => simp [pyDictInsert]
  | cons p d ih =>
    obtain ⟨k1, v1⟩ := p
    simp only [pyDictInsert]
    by_cases h : k1 == k
    · have h' : k1 = k := eq_of_beq h
      subst h'
      simp only [if_pos h, List.map_cons, List.mem_cons]
      tauto
    · simp only [if_neg h, List.map_cons, List.mem_cons, ih]
      tauto

theorem nodup_keys_pyDictInsert {d : PyDict κ τ} {k : κ} {v : τ}
    (h : (d.map Prod.fst).Nodup) :
    ((pyDictInsert d k v).map Prod.fst).Nodup := by
  induction d with
  | nil => simp [pyDictInsert]
  | cons p d ih =>
    obtain ⟨k1, v1⟩ := p
    simp only [List.map_cons, List.nodup_cons] at h
    simp only [pyDictInsert]
    by_cases hk : k1 == k
    · simp only [if_pos hk, List.map_cons, List.nodup_cons]
      exact h
    · have hne : k1 ≠ k := fun hh => hk (by simp [hh])
      simp only [if_neg hk, List.map_cons, List.nodup_cons]
      refine ⟨fun hmem => ?_, ih h.2⟩
      rcases mem_keys_pyDictInsert.1 hmem with h1 | h1
      · exact h.1 h1
      · exact hne h1

theorem pyLookup_pyDictInsert_self (d : PyDict κ τ) (k : κ) (v : τ) :
    pyLookup (pyDictInsert d k v) k = some v := by
  induction d with
  | nil => simp [pyDictInsert, pyLookup]
  | cons p d ih =>
    obtain ⟨k1, v1⟩ := p
    simp only [pyDictInsert]
    by_cases hk : k1 == k
    · simp [pyLookup, hk]
    · simp [pyLookup, hk, ih]

theorem pyLookup_pyDictInsert_ne {d : PyDict κ τ} {k k' : κ} (v : τ)
    (h : k' ≠ k) :
    pyLookup (pyDictInsert d k v) k' = pyLookup d k' := by
  induction d with
  | nil =>
    have : ¬(k == k') := fun hh => h (eq_of_beq hh).symm
    simp [pyDictInsert, pyLookup, this]
  | cons p d ih =>
    obtain ⟨k1, v1⟩ := p
    simp only [pyDictInsert]
    by_cases hk : k1 == k
    · have h1 : k1 = k := eq_of_beq hk
      subst h1
      have : ¬(k1 == k') := fun hh => h (eq_of_beq hh).symm
      simp [pyLookup, this]
    · by_cases hk' : k1 == k'
      · simp [pyLookup, hk', hk]
      · simp [pyLookup, hk', hk, ih]

theorem mem_keys_foldl_insert {ps : List (κ × τ)} {d : PyDict κ τ} {a : κ} :
    a ∈ ((ps.foldl (fun d p => pyDictInsert d p.1 p.2) d).map Prod.fst) ↔
      a ∈ d.map Prod.fst ∨ a ∈ ps.map Prod.fst := by
  induction ps generalizing d with
  | nil => simp
  | cons p ps ih =>
    simp only [List.foldl_cons, ih, mem_keys_pyDictInsert, List.map_cons,
      List.mem_cons]
    tauto

theorem nodup_keys_foldl_insert {ps : List (κ × τ)} {d : PyDict κ τ}
    (h : (d.map Prod.fst).Nodup) :
    (((ps.foldl (fun d p => pyDictInsert d p.1 p.2) d)).map Prod.fst).Nodup := by
  induction ps generalizing d with
  | nil => exact h
  | cons p ps ih => exact ih (nodup_keys_pyDictInsert h)

theorem foldl_insert_ne_nil {ps : List (κ × τ)} {d : PyDict κ τ}
    (h : d ≠ []) :
    ps.foldl (fun d p => pyDictInsert d p.1 p.2) d ≠ [] := by
  induction ps generalizing d with
  | nil => exact h
  | cons p ps ih => exact ih (pyDictInsert_ne_nil d p.1 p.2)

theorem pyLookup_foldl_insert_not_mem {ps : List (κ × τ)} {d : PyDict κ τ}
    {k : κ} (h : k ∉ ps.map Prod.fst) :
    pyLookup (ps.foldl (fun d p => pyDictInsert d p.1 p.2) d) k =
      pyLookup d k := by
  induction ps generalizing d with
  | nil => rfl
  | cons p ps ih =>
    simp only [List.map_cons, List.mem_cons, not_or] at h
    simp only [List.foldl_cons]
    rw [ih h.2, pyLookup_pyDictInsert_ne _ h.1]

theorem pyLookup_foldl_insert_mem {ps : List (κ × τ)} {d : PyDict κ τ}
    {k : κ} {v : τ} (hnd : (ps.map Prod.fst).Nodup) (hmem : (k, v) ∈ ps) :
    pyLookup (ps.foldl (fun d p => pyDictInsert d p.1 p.2) d) k = some v := by
  induction ps generalizing d with
  | nil => cases hmem
  | cons p ps ih =>
    obtain ⟨k1, v1⟩ := p
    simp only [List.map_cons, List.nodup_cons] at hnd
    rcases List.mem_cons.1 hmem with h1 | h1
    · obtain ⟨h2, h3⟩ := Prod.mk.injEq .. ▸ h1
      cases h2; cases h3
      simp only [List.foldl_cons]
      rw [pyLookup_foldl_insert_not_mem hnd.1, pyLookup_pyDictInsert_self]
    · simp only [List.foldl_cons]
      exact ih hnd.2 h1

theorem mem_keys_pyDictOfPairs {ps : List (κ × τ)} {a : κ} :
    a ∈ (pyDictOfPairs ps).map Prod.fst ↔ a ∈ ps.map Prod.fst := by
  rw [pyDictOfPairs, mem_keys_foldl_insert]
  simp

theorem nodup_keys_pyDictOfPairs (ps : List (κ × τ)) :
    ((pyDictOfPairs ps).map Prod.fst).Nodup :=
  nodup_keys_foldl_insert (by simp)

theorem pyDictOfPairs_ne_nil {ps : List (κ × τ)} (h : ps ≠ []) :
    pyDictOfPairs ps ≠ [] := by
  cases ps with
  | nil => cases h rfl
  | cons p ps =>
    simp only [pyDictOfPairs, List.foldl_cons]
    exact foldl_insert_ne_nil (pyDictInsert_ne_nil _ _ _)

end DictLemmas

/-! ### Exceptions

One flat exception space, as in Python.  `remoteRequestError` models the
`aiohttp` error raised by `raise_for_status` (the spec's
`RemoteRequestError`); `indexError`, `keyError` and `valueError` model the
built-in exceptions raised by subscripting and `datetime.strptime`.
`notFoundError` is "Modelled from the spec": the `NotFoundError` class of
the provider package is not under the sources, only its contract in §7 of
the spec ("a search returned zero results where one was required"). -/
inductive Exc where
  | remoteRequestError (status : Nat) (path : String)
  | notFoundError
  | indexError
  | keyError
  | valueError
deriving DecidableEq, Repr

/-- Equality of `Except` values is decidable when it is for both sides. -/
instance {ε α : Type} [DecidableEq ε] [DecidableEq α] :
    DecidableEq (Except ε α) := fun a b =>
  match a, b with
  | .ok x, .ok y =>
    if h : x = y then .isTrue (by rw [h]) else .isFalse (by simp [h])
  | .error e, .error f =>
    if h : e = f then .isTrue (by rw [h]) else .isFalse (by simp [h])
  | .ok _, .error _ => .isFalse (by simp)
  | .error _, .ok _ => .isFalse (by simp)

/-- Sequencing of already-started computations: the model both of awaiting
an `asyncio.gather` (determinized by index order: the first failure in
task order is the one propagated) and of running a Python list
comprehension whose body may raise. -/
def collectExcept {α : Type} : List (Except Exc α) → Except Exc (List α)
  | [] => .ok []
  | .error e :: _ => .error e
  | .ok x :: rest =>
    match collectExcept rest with
    | .error e => .error e
    | .ok xs => .ok (x :: xs)

/-! ### Domain model

Modelled from the spec: the entity and translation records of §3 live in
`scanner/providers/types/*`, which is not under the sources; their fields
are reconstructed from §3 and from the constructor calls in this module.
-/

/-- Modelled from the spec: the closed genre enumeration (§3); its members
are the values of the module's `genre_map` table. -/
inductive Genre where
  | ACTION | ADVENTURE | ANIMATION | COMEDY | CRIME | DOCUMENTARY
  | DRAMA | FAMILY | FANTASY | HISTORY | HORROR | MUSIC
  | MYSTERY | ROMANCE | SCIENCE_FICTION | THRILLER | WAR | WESTERN
deriving DecidableEq, Repr

/-- Modelled from the spec: the movie status enumeration members used by
this module (§4.2: "Released" maps to FINISHED, anything else to
PLANNED). -/
inductive MovieStatus where
  | FINISHED
  | PLANNED
deriving DecidableEq, Repr

/-- Modelled from the spec: the show status enumeration members used by
this module (§4.2). -/
inductive ShowStatus where
  | FINISHED
  | AIRING
deriving DecidableEq, Repr

/-- Result of `datetime.strptime(s, ...).date()`: a calendar date. -/
structure Date where
  year : Nat
  month : Nat
  day : Nat
deriving DecidableEq, Repr

/-- Modelled from the spec: `MetadataID(id, link)` (§3); the remote id is
rendered as a string. -/
structure MetadataID where
  id : String
  link : String
deriving DecidableEq, Repr

/-- Modelled from the spec: `Studio(name, logos, external_id)` (§3). -/
structure Studio where
  name : String
  logos : List String
  external_id : PyDict String MetadataID
deriving DecidableEq, Repr

/-- Modelled from the spec: `MovieTranslation` (§3), fields as constructed
by this module. -/
structure MovieTranslation where
  name : String
  tagline : String
  keywords : List String
  overview : String
  posters : List String
  logos : List String
  thumbnails : List String
  trailers : List String
deriving DecidableEq, Repr

/-- Modelled from the spec: `Movie` (§3), fields as constructed by this
module; `translations` maps locale codes to `MovieTranslation`s. -/
structure Movie where
  original_language : String
  aliases : List String
  release_date : Date
  status : MovieStatus
  studios : List Studio
  genres : List Genre
  external_id : PyDict String MetadataID
  translations : PyDict String MovieTranslation
deriving DecidableEq, Repr

/-- Modelled from the spec: `SeasonTranslation` (§3). -/
structure SeasonTranslation where
  name : String
  overview : String
  poster : List String
  thumbnails : List String
deriving DecidableEq, Repr

/-- Modelled from the spec: `Season` (§3), fields as constructed by
`to_season`. -/
structure Season where
  season_number : Nat
  start_date : Date
  end_date : Option Date
  external_id : PyDict String MetadataID
  translations : PyDict String SeasonTranslation
deriving DecidableEq, Repr

/-- Modelled from the spec: `ShowTranslation` (§3). -/
structure ShowTranslation where
  name : String
  tagline : String
  keywords : List String
  overview : String
  posters : List String
  logos : List String
  thumbnails : List String
  trailers : List String
deriving DecidableEq, Repr

/-- Modelled from the spec: `Show` (§3), fields as constructed by this
module. -/
structure Show where
  original_language : String
  aliases : List String
  start_air : Date
  end_air : Date
  status : ShowStatus
  studios : List Studio
  genres : List Genre
  external_id : PyDict String MetadataID
  seasons : List Season
  translations : PyDict String ShowTranslation
deriving DecidableEq, Repr

/-- Modelled from the spec: the `PartialShow` argument of `identify_show`;
the module reads its `original_language` and
`external_id["themoviedatabase"].id`. -/
structure PartialShow where
  original_language : String
  external_id : PyDict String MetadataID
deriving DecidableEq, Repr

/-! ### Remote payload shapes

The code treats remote JSON as untyped dicts; each structure below lists
exactly the keys the code reads from the corresponding payload.  A key the
code tests for presence (`"logo_path" in company`, and the `file_path`
subscript of `get_image`) is an `Option` field. -/

structure SearchResult where
  id : Nat
  original_language : String
deriving DecidableEq, Repr

structure SearchResponse where
  results : List SearchResult
deriving DecidableEq, Repr

structure AltTitle where
  title : String
deriving DecidableEq, Repr

structure AltTitles where
  titles : List AltTitle
deriving DecidableEq, Repr

structure GenreRef where
  id : Nat
deriving DecidableEq, Repr

structure KeywordEntry where
  name : String
deriving DecidableEq, Repr

structure Keywords where
  keywords : List KeywordEntry
deriving DecidableEq, Repr

/-- One entry of an image list; `file_path := none` models an entry whose
dict has no `file_path` key at all. -/
structure ImageEntry where
  file_path : Option String
deriving DecidableEq, Repr

structure Images where
  posters : List ImageEntry
  logos : List ImageEntry
  backdrops : List ImageEntry
deriving DecidableEq, Repr

structure VideoEntry where
  key : String
  type : String
  site : String
deriving DecidableEq, Repr

structure Videos where
  results : List VideoEntry
deriving DecidableEq, Repr

/-- A production company dict; `logo_path := none` models an absent
`logo_path` key (`to_studio` tests presence with `in`). -/
structure Company where
  name : String
  logo_path : Option String
  id : Nat
deriving DecidableEq, Repr

structure MovieDetails where
  original_language : String
  alternative_titles : AltTitles
  release_date : String
  status : String
  production_companies : List Company
  genres : List GenreRef
  id : Nat
  imdb_id : String
  title : String
  tagline : String
  keywords : Keywords
  overview : String
  images : Images
  videos : Videos
deriving DecidableEq, Repr

structure SeasonDetails where
  season_number : Nat
  air_date : String
  id : Nat
  name : String
  overview : String
  poster_path : Option String
deriving DecidableEq, Repr

structure TvDetails where
  original_language : String
  alternative_titles : AltTitles
  first_air_date : String
  last_air_date : String
  status : String
  in_production : Bool
  production_companies : List Company
  genres : List GenreRef
  id : Nat
  imdb_id : String
  seasons : List SeasonDetails
  name : String
  tagline : String
  keywords : Keywords
  overview : String
  images : Images
  videos : Videos
deriving DecidableEq, Repr

/-- The typed view of the remote catalog used by the `identify_*`
resolvers: each field is the composition of `get` on the corresponding
endpoint with the payload shape the code assumes.  `movie_details i lng`
is `GET /movie/:i?language=lng&append_to_response=...`, `tv_details` the
`/tv/:id` analogue; an `Except.error` is an exception escaping `get`. -/
structure Remote where
  search_movie : String → Option Int → Except Exc SearchResponse
  search_tv : String → Except Exc SearchResponse
  movie_details : Nat → String → Except Exc MovieDetails
  tv_details : String → String → Except Exc TvDetails

/-! ### The module's functions -/

/-- `self.base`, set in `__init__`. -/
def tmdb_base : String := "https://api.themoviedb.org/3"

/-- An HTTP response as seen through `aiohttp`: a status code and the
JSON-decoded body. -/
structure HttpResp (β : Type) where
  status : Nat
  body : β
deriving DecidableEq, Repr

/-- `TheMovieDatabase.get`: drop parameters whose value is `None`, build
the final query dict `\x7b"api_key": self.api_key, **params\x7d`, issue the GET
through the injected transport (`client`), and `raise_for_status` (an
`aiohttp` error for any status >= 400) before returning the body. -/
def get {β : Type} (client : String → PyDict String String → HttpResp β)
    (base api_key path : String) (params : PyDict String (Option String)) :
    Except Exc β :=
  let filtered : PyDict String String :=
    params.filterMap (fun kv => kv.2.map (fun v => (kv.1, v)))
  let query : PyDict String String :=
    pyDictOfPairs (("api_key", api_key) :: filtered)
  let r := client (base ++ "/" ++ path) query
  if 400 ≤ r.status then .error (.remoteRequestError r.status path)
  else .ok r.body

/-- `self.genre_map`, the static numeric-code-to-`Genre` table built in
`__init__`. -/
def genre_map : PyDict Nat Genre :=
  [(28, .ACTION), (12, .ADVENTURE), (16, .ANIMATION), (35, .COMEDY),
   (80, .CRIME), (99, .DOCUMENTARY), (18, .DRAMA), (10751, .FAMILY),
   (14, .FANTASY), (36, .HISTORY), (27, .HORROR), (10402, .MUSIC),
   (9648, .MYSTERY), (10749, .ROMANCE), (878, .SCIENCE_FICTION),
   (53, .THRILLER), (10752, .WAR), (37, .WESTERN)]

/-- Split a character list into the groups separated by dashes. -/
def splitDash : List Char → List (List Char)
  | [] => [[]]
  | c :: cs =>
    match splitDash cs with
    | [] => [[]]
    | g :: gs => if c = '-' then [] :: g :: gs else (c :: g) :: gs

/-- Value of a non-empty run of decimal digits, `none` otherwise. -/
def digitsToNat (acc : Nat) : List Char → Option Nat
  | [] => some acc
  | c :: cs =>
    if c.isDigit then digitsToNat (acc * 10 + (c.toNat - 48)) cs else none

/-- Numeric value of a non-empty all-digit group. -/
def parseNatGroup : List Char → Option Nat
  | [] => none
  | c :: cs => digitsToNat 0 (c :: cs)

/-- `datetime.strptime(s, "%Y-%m-%d").date()`: models the CPython parser
(not repository code) on dash-separated numeric fields, `none` standing
for the `ValueError` it raises on malformed input. -/
def strptime_ymd (s : String) : Option Date :=
  match splitDash s.data with
  | [ys, ms, ds] =>
    match parseNatGroup ys, parseNatGroup ms, parseNatGroup ds with
    | some y, some m, some d =>
      if 1 ≤ m ∧ m ≤ 12 ∧ 1 ≤ d ∧ d ≤ 31 then some ⟨y, m, d⟩ else none
    | _, _, _ => none
  | _ => none

/-- The pair list of the dict comprehension on line 60 of the source,
`\x7bk: v.translations[k] for k, v in zip(languages, items)\x7d`, evaluated
left to right; the subscript `v.translations[k]` raises `KeyError` when
the key is absent. -/
def zipTranslations {T τ : Type} (tget : T → PyDict String τ) :
    List (String × T) → Except Exc (List (String × τ))
  | [] => .ok []
  | (k, v) :: rest =>
    match pyLookup (tget v) k with
    | none => .error .keyError
    | some t =>
      match zipTranslations tget rest with
      | .error e => .error e
      | .ok ps => .ok ((k, t) :: ps)

/-- `TheMovieDatabase.process_translations`.  The Python function is
duck-typed over any entity with a `translations` attribute; `tset`/`tget`
are that attribute's setter and getter.  It gathers
`for_language(lng)` for every `lng` in `languages` (concurrently in the
source; determinized here by index order), takes `items[0]` as the base
(an `IndexError` when `languages` is empty), and overwrites its
`translations` with the dict built by `zipTranslations`. -/
def process_translations {T τ : Type} (tset : T → PyDict String τ → T)
    (tget : T → PyDict String τ) (for_language : String → Except Exc T)
    (languages : List String) : Except Exc T :=
  match collectExcept (languages.map for_language) with
  | .error e => .error e
  | .ok items =>
    match items with
    | [] => .error .indexError
    | item :: _ =>
      match zipTranslations tget (languages.zip items) with
      | .error e => .error e
      | .ok pairs => .ok (tset item (pyDictOfPairs pairs))

/-- `TheMovieDatabase.get_image`: the list comprehension keeps entries
whose `file_path` value is truthy (non-empty) and prefixes the image base
URL; subscripting an entry with no `file_path` key raises `KeyError`. -/
def get_image : List ImageEntry → Except Exc (List String)
  | [] => .ok []
  | x :: xs =>
    match x.file_path with
    | none => .error .keyError
    | some p =>
      match get_image xs with
      | .error e => .error e
      | .ok rest =>
        .ok (if p = "" then rest
             else ("https://image.tmdb.org/t/p/original" ++ p) :: rest)

/-- `TheMovieDatabase.to_studio`: note the presence test
`"logo_path" in company` (contrast with `get_image`). -/
def to_studio (company : Company) : Studio :=
  { name := company.name
    logos :=
      match company.logo_path with
      | some p => ["https://image.tmdb.org/t/p/original" ++ p]
      | none => []
    external_id :=
      [("themoviedatabase",
        { id := toString company.id
          link := "https://www.themoviedb.org/company/" ++
            toString company.id })] }

/-- Body of the `for_language` closures of `identify_movie` and
`identify_episode` after the detail GET: builds the `Movie` and its
single-locale `MovieTranslation` from the payload.  Failure points, in
Python evaluation order: the `strptime` of `release_date` (`ValueError`),
then the three `get_image` calls (`KeyError`). -/
def mkMovie (lng : String) (movie : MovieDetails) : Except Exc Movie :=
  match strptime_ymd movie.release_date with
  | none => .error .valueError
  | some release_date =>
    match get_image movie.images.posters with
    | .error e => .error e
    | .ok posters =>
      match get_image movie.images.logos with
      | .error e => .error e
      | .ok logos =>
        match get_image movie.images.backdrops with
        | .error e => .error e
        | .ok backdrops =>
          .ok
            { original_language := movie.original_language
              aliases := movie.alternative_titles.titles.map (·.title)
              release_date := release_date
              status :=
                if movie.status = "Released" then MovieStatus.FINISHED
                else MovieStatus.PLANNED
              studios := movie.production_companies.map to_studio
              genres :=
                movie.genres.filterMap (fun x => pyLookup genre_map x.id)
              external_id :=
                [("themoviedatabase",
                  { id := toString movie.id
                    link := "https://www.themoviedb.org/movie/" ++
                      toString movie.id }),
                 ("imdb",
                  { id := movie.imdb_id
                    link := "https://www.imdb.com/title/" ++
                      movie.imdb_id })]
              translations :=
                [(lng,
                  { name := movie.title
                    tagline := movie.tagline
                    keywords := movie.keywords.keywords.map (·.name)
                    overview := movie.overview
                    posters := posters
                    logos := logos
                    thumbnails := backdrops
                    trailers :=
                      (movie.videos.results.filter
                        (fun x => x.type == "Trailer" && x.site == "YouTube")).map
                        (fun x => "https://www.youtube.com/watch?v" ++
                          x.key) })] }

/-- The `for_language` closure of `identify_movie` (and, verbatim, of
`identify_episode`): `GET /movie/\x7bmovie_id\x7d` for one locale, then
`mkMovie`. -/
def movie_for_language (remote : Remote) (movie_id : Nat) (lng : String) :
    Except Exc Movie :=
  match remote.movie_details movie_id lng with
  | .error e => .error e
  | .ok movie => mkMovie lng movie

/-- `TheMovieDatabase.identify_movie`.  The second component of the result
is the final state of the caller-supplied `language` list, which line 91
mutates in place (append of the search result's `original_language` when
absent).  An empty `results` list makes `[0]` raise `IndexError` before
the mutation. -/
def identify_movie (remote : Remote) (name : String) (year : Option Int)
    (language : List String) : Except Exc Movie × List String :=
  match remote.search_movie name year with
  | .error e => (.error e, language)
  | .ok resp =>
    match resp.results with
    | [] => (.error .indexError, language)
    | search :: _ =>
      let language :=
        if language.contains search.original_language then language
        else language ++ [search.original_language]
      (process_translations (fun m d => { m with translations := d })
        Movie.translations (movie_for_language remote search.id) language,
       language)

/-- `TheMovieDatabase.to_season`: builds one `Season` from a season
summary dict, carrying only the currently iterated locale's translation;
the `strptime` of `air_date` can raise `ValueError`. -/
def to_season (season : SeasonDetails) (language : String)
    (show_id : String) : Except Exc Season :=
  match strptime_ymd season.air_date with
  | none => .error .valueError
  | some start_date =>
    .ok
      { season_number := season.season_number
        start_date := start_date
        end_date := none
        external_id :=
          [("themoviedatabase",
            { id := toString season.id
              link := "https://www.themoviedb.org/tv/" ++ show_id ++
                "/season/" ++ toString season.season_number })]
        translations :=
          [(language,
            { name := season.name
              overview := season.overview
              poster :=
                match season.poster_path with
                | some p => ["https://image.tmdb.org/t/p/original" ++ p]
                | none => []
              thumbnails := [] })] }

/-- Body of the `for_language` closure of `identify_show` after the
detail GET.  Failure points, in Python evaluation order: the two
`strptime` calls, `to_season` on each embedded season summary, then the
three `get_image` calls. -/
def mkShow (lng : String) (shw : TvDetails) : Except Exc Show :=
  match strptime_ymd shw.first_air_date with
  | none => .error .valueError
  | some start_air =>
    match strptime_ymd shw.last_air_date with
    | none => .error .valueError
    | some end_air =>
      match collectExcept
          (shw.seasons.map (fun x => to_season x lng (toString shw.id))) with
      | .error e => .error e
      | .ok seasons =>
        match get_image shw.images.posters with
        | .error e => .error e
        | .ok posters =>
          match get_image shw.images.logos with
          | .error e => .error e
          | .ok logos =>
            match get_image shw.images.backdrops with
            | .error e => .error e
            | .ok backdrops =>
              .ok
                { original_language := shw.original_language
                  aliases := shw.alternative_titles.titles.map (·.title)
                  start_air := start_air
                  end_air := end_air
                  status :=
                    if shw.status = "Released" then ShowStatus.FINISHED
                    else if shw.in_production then ShowStatus.AIRING
                    else ShowStatus.FINISHED
                  studios := shw.production_companies.map to_studio
                  genres :=
                    shw.genres.filterMap (fun x => pyLookup genre_map x.id)
                  external_id :=
                    [("themoviedatabase",
                      { id := toString shw.id
                        link := "https://www.themoviedb.org/tv/" ++
                          toString shw.id }),
                     ("imdb",
                      { id := shw.imdb_id
                        link := "https://www.imdb.com/title/" ++
                          shw.imdb_id })]
                  seasons := seasons
                  translations :=
                    [(lng,
                      { name := shw.name
                        tagline := shw.tagline
                        keywords := shw.keywords.keywords.map (·.name)
                        overview := shw.overview
                        posters := posters
                        logos := logos
                        thumbnails := backdrops
                        trailers :=
                          (shw.videos.results.filter
                            (fun x => x.type == "Trailer" &&
                              x.site == "YouTube")).map
                            (fun x => "https://www.youtube.com/watch?v" ++
                              x.key) })] }

/-- The `for_language` closure of `identify_show`. -/
def show_for_language (remote : Remote) (show_id : String) (lng : String) :
    Except Exc Show :=
  match remote.tv_details show_id lng with
  | .error e => .error e
  | .ok shw => mkShow lng shw

/-- `TheMovieDatabase.identify_show`.  Line 155 subscripts
`show.external_id["themoviedatabase"]` (a `KeyError` when absent) before
lines 156-157 mutate the caller's `language` list in place; the second
component of the result is that list's final state. -/
def identify_show (remote : Remote) (shw : PartialShow)
    (language : List String) : Except Exc Show × List String :=
  match pyLookup shw.external_id "themoviedatabase" with
  | none => (.error .keyError, language)
  | some mid =>
    let language :=
      if language.contains shw.original_language then language
      else language ++ [shw.original_language]
    (process_translations (fun s d => { s with translations := d })
      Show.translations (show_for_language remote mid.id) language,
     language)

/-- `TheMovieDatabase.identify_episode`.  Faithful to the source: the
`season`, `episode` and `absolute` arguments are never used; the search
runs against `/search/tv` but the per-locale closure fetches
`/movie/\x7bshow_id\x7d` and constructs `Movie` and `MovieTranslation` values
(not `Episode` ones) exactly as `identify_movie` does; and line 316
returns the `process_translations` coroutine without awaiting it (the
value modelled here is the one that coroutine would produce).  The second
component is the final state of the caller's `language` list (mutated on
line 260). -/
def identify_episode (remote : Remote) (name : String)
    (season episode absolute : Option Int) (language : List String) :
    Except Exc Movie × List String :=
  match remote.search_tv name with
  | .error e => (.error e, language)
  | .ok resp =>
    match resp.results with
    | [] => (.error .indexError, language)
    | search :: _ =>
      let language :=
        if language.contains search.original_language then language
        else language ++ [search.original_language]
      (process_translations (fun m d => { m with translations := d })
        Movie.translations (movie_for_language remote search.id) language,
       language)

/-! ### Lemmas about the aggregation machinery -/

theorem collectExcept_map_ok {σ α : Type} {f : σ → Except Exc α} {g : σ → α}
    {l : List σ} (h : ∀ s ∈ l, f s = .ok (g s)) :
    collectExcept (l.map f) = .ok (l.map g) := by
  induction l with
  | nil => rfl
  | cons a l ih =>
    have ha := h a (List.mem_cons_self a l)
    have hl := ih (fun s hs => h s (List.mem_cons_of_mem a hs))
    simp only [List.map_cons, collectExcept, ha, hl]

theorem collectExcept_ok_zip {σ α : Type} {f : σ → Except Exc α}
    {l : List σ} {xs : List α} (h : collectExcept (l.map f) = .ok xs) :
    ∀ p ∈ l.zip xs, f p.1 = .ok p.2 := by
  induction l generalizing xs with
  | nil => intro p hp; simp at hp
  | cons a l ih =>
    intro p hp
    rcases hf : f a with e | x
    · simp only [List.map_cons, collectExcept, hf] at h
      exact absurd h (by simp)
    · simp only [List.map_cons, collectExcept, hf] at h
      rcases hc : collectExcept (l.map f) with e | ys
      · rw [hc] at h; exact absurd h (by simp)
      · rw [hc] at h
        have hxs : xs = x :: ys := by
          have := h
          simp only [Except.ok.injEq] at this
          exact this.symm
        subst hxs
        rcases List.mem_cons.1 hp with h1 | h1
        · subst h1; exact hf
        · exact ih hc p h1

theorem collectExcept_ok_length {α : Type} {es : List (Except Exc α)}
    {xs : List α} (h : collectExcept es = .ok xs) :
    xs.length = es.length := by
  induction es generalizing xs with
  | nil =>
    simp only [collectExcept, Except.ok.injEq] at h
    simp [← h]
  | cons e es ih =>
    rcases e with e | x
    · simp only [collectExcept] at h
      exact absurd h (by simp)
    · simp only [collectExcept] at h
      rcases hc : collectExcept es with e2 | ys
      · rw [hc] at h; exact absurd h (by simp)
      · rw [hc] at h
        simp only [Except.ok.injEq] at h
        subst h
        simp [ih hc]

theorem collectExcept_error_of_mem {α : Type} {es : List (Except Exc α)}
    {e : Exc} (h : Except.error e ∈ es) :
    ∃ e2, collectExcept es = .error e2 := by
  induction es with
  | nil => cases h
  | cons x es ih =>
    rcases x with e1 | a
    · exact ⟨e1, rfl⟩
    · rcases List.mem_cons.1 h with h1 | h1
      · cases h1
      · obtain ⟨e2, he2⟩ := ih h1
        refine ⟨e2, ?_⟩
        simp only [collectExcept, he2]

theorem collectExcept_error_first {α : Type} {es : List (Except Exc α)}
    {e : Exc} (hmem : Except.error e ∈ es)
    (hall : ∀ x ∈ es, x = Except.error e ∨ ∃ a, x = Except.ok a) :
    collectExcept es = .error e := by
  induction es with
  | nil => cases hmem
  | cons x es ih =>
    rcases hall x (List.mem_cons_self x es) with h1 | ⟨a, h1⟩
    · subst h1; rfl
    · subst h1
      have hmem' : Except.error e ∈ es := by
        rcases List.mem_cons.1 hmem with h2 | h2
        · cases h2
        · exact h2
      have := ih hmem' (fun x hx => hall x (List.mem_cons_of_mem _ hx))
      simp only [collectExcept, this]

theorem zipTranslations_ok_of {T τ : Type} {tget : T → PyDict String τ}
    {trf : String → τ} {ps : List (String × T)}
    (h : ∀ p ∈ ps, pyLookup (tget p.2) p.1 = some (trf p.1)) :
    zipTranslations tget ps = .ok (ps.map (fun p => (p.1, trf p.1))) := by
  induction ps with
  | nil => rfl
  | cons p ps ih =>
    obtain ⟨k, v⟩ := p
    have hp := h (k, v) (List.mem_cons_self _ _)
    have hps := ih (fun q hq => h q (List.mem_cons_of_mem _ hq))
    simp only [zipTranslations, hp, hps, List.map_cons]

theorem zipTranslations_ok_fst {T τ : Type} {tget : T → PyDict String τ}
    {ps : List (String × T)} {prs : List (String × τ)}
    (h : zipTranslations tget ps = .ok prs) :
    prs.map Prod.fst = ps.map Prod.fst := by
  induction ps generalizing prs with
  | nil =>
    simp only [zipTranslations, Except.ok.injEq] at h
    simp [← h]
  | cons p ps ih =>
    obtain ⟨k, v⟩ := p
    simp only [zipTranslations] at h
    rcases hl : pyLookup (tget v) k with _ | t
    · rw [hl] at h; exact absurd h (by simp)
    · rw [hl] at h
      rcases hz : zipTranslations tget ps with e | qs
      · rw [hz] at h; exact absurd h (by simp)
      · rw [hz] at h
        simp only [Except.ok.injEq] at h
        subst h
        simp [ih hz]

theorem zip_self_map {α β : Type} (f : α → β) (l : List α) :
    l.zip (l.map f) = l.map (fun a => (a, f a)) := by
  induction l with
  | nil => rfl
  | cons a l ih => simp [List.zip_cons_cons, ih]

/-- Inversion of a successful `mkMovie`: the locale-independent fields the
claims are about, read off the payload. -/
theorem mkMovie_ok_fields {lng : String} {movie : MovieDetails} {m : Movie}
    (h : mkMovie lng movie = .ok m) :
    m.original_language = movie.original_language ∧
    m.status = (if movie.status = "Released" then MovieStatus.FINISHED
      else MovieStatus.PLANNED) ∧
    m.genres = movie.genres.filterMap (fun x => pyLookup genre_map x.id) ∧
    m.translations =
      [(lng,
        { name := movie.title
          tagline := movie.tagline
          keywords := movie.keywords.keywords.map (·.name)
          overview := movie.overview
          posters := (get_image movie.images.posters).toOption.getD []
          logos := (get_image movie.images.logos).toOption.getD []
          thumbnails := (get_image movie.images.backdrops).toOption.getD []
          trailers :=
            (movie.videos.results.filter
              (fun x => x.type == "Trailer" && x.site == "YouTube")).map
              (fun x => "https://www.youtube.com/watch?v" ++ x.key) })] := by
  unfold mkMovie at h
  rcases hd : strptime_ymd movie.release_date with _ | rd <;> rw [hd] at h
  · exact absurd h (by simp)
  rcases hp : get_image movie.images.posters with e | posters <;> rw [hp] at h
  · exact absurd h (by simp)
  rcases hl : get_image movie.images.logos with e | logos <;> rw [hl] at h
  · exact absurd h (by simp)
  rcases hb : get_image movie.images.backdrops with e | backdrops <;>
    rw [hb] at h
  · exact absurd h (by simp)
  simp only [Except.ok.injEq] at h
  subst h
  simp [hp, hl, hb, Except.toOption]

/-- `True` exactly on `Except.ok` values. -/
def exceptIsOk {ε α : Type} : Except ε α → Bool
  | .ok _ => true
  | .error _ => false

theorem exceptIsOk_iff {ε α : Type} {x : Except ε α} :
    exceptIsOk x = true ↔ ∃ a, x = .ok a := by
  cases x <;> simp [exceptIsOk]

/-- Lookup in a dict built from pairs generated by a function: the last
write for a key wins, and all writes for a key carry the same value. -/
theorem pyLookup_pyDictOfPairs_fn {κ τ : Type} [BEq κ] [LawfulBEq κ]
    [DecidableEq κ] {g : κ → τ} {l : List κ} {k : κ} (hk : k ∈ l) :
    pyLookup (pyDictOfPairs (l.map (fun a => (a, g a)))) k = some (g k) := by
  suffices h : ∀ d : PyDict κ τ,
      pyLookup ((l.map (fun a => (a, g a))).foldl
        (fun d p => pyDictInsert d p.1 p.2) d) k =
        if k ∈ l then some (g k) else pyLookup d k by
    rw [pyDictOfPairs, h, if_pos hk]
  clear hk
  induction l with
  | nil => intro d; simp
  | cons a l ih =>
    intro d
    simp only [List.map_cons, List.foldl_cons, ih, List.mem_cons]
    by_cases hl : k ∈ l
    · simp [hl]
    · by_cases ha : k = a
      · subst ha
        simp [hl, pyLookup_pyDictInsert_self]
      · simp [hl, ha, pyLookup_pyDictInsert_ne _ ha]

/-- Shape of a successful `process_translations` run. -/
theorem process_translations_eq_ok {T τ : Type}
    {tset : T → PyDict String τ → T} {tget : T → PyDict String τ}
    {for_language : String → Except Exc T} {languages : List String}
    {item : T} {rest : List T} {pairs : List (String × τ)}
    (hg : collectExcept (languages.map for_language) = .ok (item :: rest))
    (hzt : zipTranslations tget (languages.zip (item :: rest)) = .ok pairs) :
    process_translations tset tget for_language languages =
      .ok (tset item (pyDictOfPairs pairs)) := by
  unfold process_translations
  rw [hg]
  simp only [hzt]

/-- `process_translations` propagates a failed gather unchanged. -/
theorem process_translations_eq_error {T τ : Type}
    {tset : T → PyDict String τ → T} {tget : T → PyDict String τ}
    {for_language : String → Except Exc T} {languages : List String}
    {e : Exc}
    (hg : collectExcept (languages.map for_language) = .error e) :
    process_translations tset tget for_language languages = .error e := by
  unfold process_translations
  rw [hg]

/-- Inversion of a successful `process_translations` run. -/
theorem process_translations_ok_inv {T τ : Type}
    {tset : T → PyDict String τ → T} {tget : T → PyDict String τ}
    {for_language : String → Except Exc T} {languages : List String}
    {m : T}
    (h : process_translations tset tget for_language languages = .ok m) :
    ∃ item rest pairs,
      collectExcept (languages.map for_language) = .ok (item :: rest) ∧
      zipTranslations tget (languages.zip (item :: rest)) = .ok pairs ∧
      m = tset item (pyDictOfPairs pairs) := by
  unfold process_translations at h
  split at h
  next e hg => exact absurd h (by simp)
  next items hg =>
    split at h
    next => exact absurd h (by simp)
    next item rest =>
      split at h
      next e hzt => exact absurd h (by simp)
      next pairs hzt =>
        simp only [Except.ok.injEq] at h
        exact ⟨item, rest, pairs, hg, hzt, h.symm⟩

/-! ### Claim theorems -/

/-- C1: for every non-empty locale list and per-locale producer,
`process_translations` returns the first locale's entity (index order)
with only its `translations` attribute overwritten by the dict pairing
each input locale, in order, with the translation extracted from that
same locale's result; the dict has exactly one entry per input locale.
(The producer is assumed to succeed on every input locale with an entity
carrying its own locale's translation, as the `for_language` closures of
this module always arrange; completion order does not exist in this
deterministic embedding, matching the guarantee that merging is by index,
not by speed.) -/
theorem process_translations_spec {T τ : Type}
    (tset : T → PyDict String τ → T) (tget : T → PyDict String τ)
    (fetch : String → Except Exc T) (f : String → T) (trf : String → τ)
    (l0 : String) (L : List String)
    (hf : ∀ l ∈ l0 :: L, fetch l = .ok (f l))
    (hset : ∀ x d, tget (tset x d) = d)
    (htr : ∀ l ∈ l0 :: L, pyLookup (tget (f l)) l = some (trf l)) :
    process_translations tset tget fetch (l0 :: L) =
      .ok (tset (f l0)
        (pyDictOfPairs ((l0 :: L).map (fun l => (l, trf l))))) ∧
    (∀ m, process_translations tset tget fetch (l0 :: L) = .ok m →
      (((tget m).map Prod.fst).Nodup ∧
       (∀ k, k ∈ (tget m).map Prod.fst ↔ k ∈ l0 :: L) ∧
       (∀ k, k ∈ l0 :: L → pyLookup (tget m) k = some (trf k)))) := by
  have hg : collectExcept (List.map fetch (l0 :: L)) =
      .ok (List.map f (l0 :: L)) := collectExcept_map_ok hf
  have hzt : zipTranslations tget
      ((l0 :: L).zip (List.map f (l0 :: L))) =
      .ok ((l0 :: L).map (fun l => (l, trf l))) := by
    rw [zip_self_map]
    have h2 := @zipTranslations_ok_of _ _ tget trf
      ((l0 :: L).map (fun l => (l, f l)))
      (by intro p hp
          obtain ⟨l, hl, rfl⟩ := List.mem_map.1 hp
          exact htr l hl)
    rw [h2, List.map_map]
    rfl
  have hmain : process_translations tset tget fetch (l0 :: L) =
      .ok (tset (f l0)
        (pyDictOfPairs ((l0 :: L).map (fun l => (l, trf l))))) := by
    have hg' : collectExcept (List.map fetch (l0 :: L)) =
        .ok (f l0 :: List.map f L) := by
      rw [hg]; simp
    have hzt' : zipTranslations tget
        ((l0 :: L).zip (f l0 :: List.map f L)) =
        .ok ((l0 :: L).map (fun l => (l, trf l))) := by
      rw [← List.map_cons f l0 L]
      exact hzt
    exact process_translations_eq_ok hg' hzt'
  refine ⟨hmain, fun m hm => ?_⟩
  have hm2 : m = tset (f l0)
      (pyDictOfPairs ((l0 :: L).map (fun l => (l, trf l)))) :=
    (Except.ok.inj (hmain.symm.trans hm)).symm
  subst hm2
  rw [hset]
  have hfst : (((l0 :: L).map (fun l => (l, trf l))).map Prod.fst) =
      l0 :: L := by
    rw [List.map_map]
    exact List.map_id (l0 :: L)
  refine ⟨nodup_keys_pyDictOfPairs _, fun k => ?_, fun k hk => ?_⟩
  · rw [mem_keys_pyDictOfPairs, hfst]
  · exact pyLookup_pyDictOfPairs_fn hk

/-- Toy per-locale entity for exercising `process_translations`: a
non-translation payload (the number) plus a `translations` dict. -/
def wFetchBase (l : String) : Nat × PyDict String Nat :=
  (if l = "en" then 1 else 2, [(l, 10)])

/-- Toy producer that succeeds on every locale. -/
def wFetch (l : String) : Except Exc (Nat × PyDict String Nat) :=
  .ok (wFetchBase l)

/-- C1 witness: two locales, merged base is the first locale's payload,
one translation entry per locale. -/
theorem process_translations_spec_witness :
    process_translations (fun (x : Nat × PyDict String Nat) d => (x.1, d))
      Prod.snd wFetch ["en", "fr"] =
      .ok ((1 : Nat), ([("en", 10), ("fr", 10)] : PyDict String Nat)) ∧
    (∀ m, process_translations (fun (x : Nat × PyDict String Nat) d =>
        (x.1, d)) Prod.snd wFetch ["en", "fr"] = .ok m →
      ((m.2.map Prod.fst).Nodup ∧
       (∀ k, k ∈ m.2.map Prod.fst ↔ k ∈ ["en", "fr"]) ∧
       (∀ k, k ∈ ["en", "fr"] → pyLookup m.2 k = some 10))) := by
  have h := process_translations_spec
    (fun (x : Nat × PyDict String Nat) d => (x.1, d)) Prod.snd wFetch
    wFetchBase (fun _ => 10) "en" ["fr"]
    (fun l _ => rfl) (fun _ _ => rfl) (by decide)
  exact ⟨h.1, h.2⟩

/-- C3: if the fetch of any one input locale fails, the whole
`process_translations` aggregation fails — no partial entity is ever
returned — and when every other locale's fetch succeeds the error is
exactly the failing locale's one. -/
theorem process_translations_all_or_nothing {T τ : Type}
    (tset : T → PyDict String τ → T) (tget : T → PyDict String τ)
    (fetch : String → Except Exc T) (L : List String) (l : String) (e : Exc)
    (hmem : l ∈ L) (herr : fetch l = .error e) :
    (∃ e2, process_translations tset tget fetch L = .error e2) ∧
    ((∀ l2 ∈ L, l2 ≠ l → exceptIsOk (fetch l2) = true) →
      process_translations tset tget fetch L = .error e) := by
  constructor
  · obtain ⟨e2, he2⟩ := collectExcept_error_of_mem
      (List.mem_map.2 ⟨l, hmem, herr⟩ : Except.error e ∈ L.map fetch)
    exact ⟨e2, process_translations_eq_error he2⟩
  · intro hothers
    have hfirst : collectExcept (L.map fetch) = .error e := by
      apply collectExcept_error_first (List.mem_map.2 ⟨l, hmem, herr⟩)
      intro x hx
      obtain ⟨l2, hl2, rfl⟩ := List.mem_map.1 hx
      by_cases hcase : l2 = l
      · subst hcase; exact Or.inl herr
      · obtain ⟨a, ha⟩ := exceptIsOk_iff.1 (hothers l2 hl2 hcase)
        exact Or.inr ⟨a, ha⟩
    exact process_translations_eq_error hfirst

/-- Toy producer whose second of three locales raises (the spec's own
test sketch). -/
def wFetchFail (l : String) : Except Exc (Nat × PyDict String Nat) :=
  if l = "fr" then .error .valueError else .ok (1, [(l, 10)])

/-- C3 witness: with locales `[en, fr, de]` and `fr` failing, the whole
aggregation fails with `fr`'s error. -/
theorem process_translations_all_or_nothing_witness :
    (∃ e2, process_translations
      (fun (x : Nat × PyDict String Nat) d => (x.1, d)) Prod.snd
      wFetchFail ["en", "fr", "de"] = .error e2) ∧
    process_translations (fun (x : Nat × PyDict String Nat) d => (x.1, d))
      Prod.snd wFetchFail ["en", "fr", "de"] = .error .valueError := by
  have h := process_translations_all_or_nothing
    (fun (x : Nat × PyDict String Nat) d => (x.1, d)) Prod.snd wFetchFail
    ["en", "fr", "de"] "fr" .valueError (by decide) (by decide)
  exact ⟨h.1, h.2 (by decide)⟩

/-- Inversion of a successful `movie_for_language` run. -/
theorem movie_for_language_ok_inv {remote : Remote} {mid : Nat}
    {lng : String} {m : Movie}
    (h : movie_for_language remote mid lng = .ok m) :
    ∃ d, remote.movie_details mid lng = .ok d ∧ mkMovie lng d = .ok m := by
  unfold movie_for_language at h
  split at h
  next e hd => exact absurd h (by simp)
  next d hd => exact ⟨d, hd, h⟩

/-- C2: for every non-empty requested locale list, a successful
`identify_movie` returns a movie whose `translations` keys are exactly
the requested locales together with the entity's original locale, with
no duplicate keys and at least one entry.  (The remote is assumed
coherent: every detail payload for the found movie reports the same
`original_language` as its search result — the code reads the appended
locale from the search result and the entity's field from the first
detail fetch.) -/
theorem identify_movie_translation_keys (remote : Remote) (nm : String)
    (year : Option Int) (l0 : String) (L : List String)
    (resp : SearchResponse) (sm : SearchResult) (srest : List SearchResult)
    (hs : remote.search_movie nm year = .ok resp)
    (hres : resp.results = sm :: srest)
    (hcons : ∀ lng d, remote.movie_details sm.id lng = .ok d →
      d.original_language = sm.original_language) :
    ∀ m, (identify_movie remote nm year (l0 :: L)).1 = .ok m →
      ((m.translations.map Prod.fst).Nodup ∧
       (∀ k, k ∈ m.translations.map Prod.fst ↔
         (k ∈ l0 :: L ∨ k = m.original_language)) ∧
       m.translations ≠ []) := by
  intro m hm
  simp only [identify_movie, hs, hres] at hm
  set L2 := if (l0 :: L).contains sm.original_language then l0 :: L
    else (l0 :: L) ++ [sm.original_language] with hL2
  obtain ⟨item, irest, pairs, hg, hzt, hm2⟩ := process_translations_ok_inv hm
  obtain ⟨Ltl, hL2cons⟩ : ∃ Ltl, L2 = l0 :: Ltl := by
    rw [hL2]
    split
    · exact ⟨L, rfl⟩
    · exact ⟨L ++ [sm.original_language], rfl⟩
  have hlen : (item :: irest).length = L2.length := by
    have h1 := collectExcept_ok_length hg
    simpa using h1
  have hfst : pairs.map Prod.fst = L2 := by
    rw [zipTranslations_ok_fst hzt]
    exact List.map_fst_zip _ _ (le_of_eq hlen.symm)
  have hfetch0 : movie_for_language remote sm.id l0 = .ok item := by
    refine collectExcept_ok_zip hg (l0, item) ?_
    rw [hL2cons]
    simp [List.zip_cons_cons]
  obtain ⟨d, hd, hmk⟩ := movie_for_language_ok_inv hfetch0
  have horig : m.original_language = sm.original_language := by
    rw [hm2]
    exact (mkMovie_ok_fields hmk).1.trans (hcons l0 d hd)
  have htr : m.translations = pyDictOfPairs pairs := by rw [hm2]
  have hpairs_ne : pairs ≠ [] := by
    intro hnil
    rw [hnil] at hfst
    rw [hL2cons] at hfst
    exact absurd hfst.symm (by simp)
  refine ⟨?_, fun k => ?_, ?_⟩
  · rw [htr]; exact nodup_keys_pyDictOfPairs _
  · rw [htr, mem_keys_pyDictOfPairs, hfst, horig, hL2]
    split
    next hcont =>
      constructor
      · exact fun hk => Or.inl hk
      · rintro (hk | rfl)
        · exact hk
        · exact List.elem_iff.1 hcont
    next hcont =>
      simp only [List.mem_append, List.mem_cons, List.mem_singleton]
      tauto
  · rw [htr]; exact pyDictOfPairs_ne_nil hpairs_ne

/-- Concrete search result used by the concrete remote below. -/
def wSearchResult : SearchResult := { id := 7, original_language := "ja" }

/-- Concrete movie detail payload used by the concrete remote below. -/
def wDetails : MovieDetails :=
  { original_language := "ja"
    alternative_titles := ⟨[]⟩
    release_date := "2020-01-01"
    status := "Released"
    production_companies := []
    genres := []
    id := 7
    imdb_id := "tt7"
    title := "T"
    tagline := ""
    keywords := ⟨[]⟩
    overview := ""
    images := ⟨[], [], []⟩
    videos := ⟨[]⟩ }

/-- A concrete coherent remote: one movie (id 7, original language
`ja`), identical detail payload for every locale. -/
def wRemote : Remote :=
  { search_movie := fun _ _ => .ok ⟨[wSearchResult]⟩
    search_tv := fun _ => .ok ⟨[wSearchResult]⟩
    movie_details := fun i _ =>
      if i = 7 then .ok wDetails else .error .notFoundError
    tv_details := fun _ _ => .error .notFoundError }

/-- The translation extracted from `wDetails` for any locale. -/
def wTranslation : MovieTranslation :=
  { name := "T", tagline := "", keywords := [], overview := ""
    posters := [], logos := [], thumbnails := [], trailers := [] }

/-- The movie produced by `identify_movie wRemote "n" none ["en"]` (and,
because of the episode bug, by `identify_episode` on the same remote):
base fields from the `en` fetch, translations for `en` and the appended
original locale `ja`. -/
def wMergedMovie : Movie :=
  { original_language := "ja"
    aliases := []
    release_date := ⟨2020, 1, 1⟩
    status := .FINISHED
    studios := []
    genres := []
    external_id :=
      [("themoviedatabase",
        { id := "7", link := "https://www.themoviedb.org/movie/7" }),
       ("imdb", { id := "tt7", link := "https://www.imdb.com/title/tt7" })]
    translations := [("en", wTranslation), ("ja", wTranslation)] }

/-- C2 witness: requested locales `["en"]`, original locale `ja`; the
result's translation keys are exactly `en` and `ja`. -/
theorem identify_movie_translation_keys_witness :
    (identify_movie wRemote "n" none ["en"]).1 = .ok wMergedMovie ∧
    ((wMergedMovie.translations.map Prod.fst).Nodup ∧
     (∀ k, k ∈ wMergedMovie.translations.map Prod.fst ↔
       (k ∈ ["en"] ∨ k = wMergedMovie.original_language)) ∧
     wMergedMovie.translations ≠ []) := by
  refine ⟨by rfl, ?_⟩
  exact identify_movie_translation_keys wRemote "n" none "en" []
    ⟨[wSearchResult]⟩ wSearchResult [] rfl rfl
    (fun lng d h => by
      rw [show wRemote.movie_details wSearchResult.id lng =
        Except.ok wDetails from rfl] at h
      cases h
      rfl)
    wMergedMovie (by rfl)

/-- A concrete remote for exercising `identify_episode`: the TV search
finds a show (id 7), every `/tv` detail request fails, every
`/movie/7` detail request succeeds. -/
def wEpRemote : Remote :=
  { search_movie := fun _ _ => .error .notFoundError
    search_tv := fun _ => .ok ⟨[wSearchResult]⟩
    movie_details := fun i _ =>
      if i = 7 then .ok wDetails else .error .notFoundError
    tv_details := fun _ _ => .error .notFoundError }

/-- C4: `identify_episode` does not produce an `Episode`.  On a remote
whose every `/tv/...` detail request fails, `identify_episode`
nevertheless succeeds — it never consults the TV detail endpoint — and
the value it produces is the `Movie` built from `/movie/\x7bshow_id\x7d` (in
this embedding its Lean type is `Movie`; in the source the Python
annotation promises `Episode`, the body constructs `Movie` and
`MovieTranslation` values, and line 316 even returns the aggregation
coroutine without awaiting it). -/
theorem identify_episode_builds_movie :
    (∀ i lng, wEpRemote.tv_details i lng = Except.error Exc.notFoundError) ∧
    (identify_episode wEpRemote "n" none none none ["en"]).1 =
      Except.ok wMergedMovie :=
  ⟨fun _ _ => rfl, by rfl⟩

/-- A concrete remote whose searches return an empty result list. -/
def wEmptyRemote : Remote :=
  { search_movie := fun _ _ => .ok ⟨[]⟩
    search_tv := fun _ => .ok ⟨[]⟩
    movie_details := fun _ _ => .error .notFoundError
    tv_details := fun _ _ => .error .notFoundError }

/-- C5 counterexample: on an empty search result list the operations
fail with `IndexError` (from `["results"][0]`), not with the
`NotFoundError` the claim names. -/
theorem identify_empty_results_counterexample :
    (identify_movie wEmptyRemote "x" none ["en"]).1 =
      .error Exc.indexError ∧
    (identify_movie wEmptyRemote "x" none ["en"]).1 ≠
      .error Exc.notFoundError ∧
    (identify_episode wEmptyRemote "x" none none none ["en"]).1 =
      .error Exc.indexError ∧
    (identify_episode wEmptyRemote "x" none none none ["en"]).1 ≠
      .error Exc.notFoundError := by
  refine ⟨rfl, ?_, rfl, ?_⟩ <;> decide

/-- C5 amended: an empty search result list still makes the whole
operation fail with no entity returned, but the failure is the raw
`IndexError` of subscripting an empty list, not a `NotFoundError`. -/
theorem identify_empty_results (remote : Remote) (nm : String)
    (year se ep ab : Option Int) (L : List String) :
    (∀ resp, remote.search_movie nm year = .ok resp → resp.results = [] →
      (identify_movie remote nm year L).1 = .error .indexError) ∧
    (∀ resp, remote.search_tv nm = .ok resp → resp.results = [] →
      (identify_episode remote nm se ep ab L).1 = .error .indexError) := by
  constructor
  · intro resp hs hres
    simp only [identify_movie, hs, hres]
  · intro resp hs hres
    simp only [identify_episode, hs, hres]

/-- C5 witness: the amended statement applied to the concrete remote
with empty search results. -/
theorem identify_empty_results_witness :
    (identify_movie wEmptyRemote "x" none ["en"]).1 =
      .error Exc.indexError ∧
    (identify_episode wEmptyRemote "x" none none none ["en"]).1 =
      .error Exc.indexError :=
  ⟨(identify_empty_results wEmptyRemote "x" none none none none
      ["en"]).1 ⟨[]⟩ rfl rfl,
   (identify_empty_results wEmptyRemote "x" none none none none
      ["en"]).2 ⟨[]⟩ rfl rfl⟩

/-- C6 counterexample: an entry with no `file_path` key is not silently
excluded — `get_image` raises `KeyError` (the comprehension's filter
subscripts the missing key), so the call does not return the empty
list the claim predicts. -/
theorem get_image_missing_key_counterexample :
    get_image [{ file_path := none }] = .error Exc.keyError ∧
    get_image [{ file_path := none }] ≠ .ok [] := by
  refine ⟨rfl, ?_⟩
  decide

/-- C6 amended: when every entry carries a `file_path` key, `get_image`
returns the base-URL-prefixed path of every entry with a non-empty path,
excluding the empty-path entries; an entry with no `file_path` key makes
the whole call fail with `KeyError` instead of being excluded. -/
theorem get_image_spec (images : List ImageEntry) :
    ((∀ x ∈ images, x.file_path ≠ none) →
      get_image images = .ok (images.filterMap (fun x =>
        match x.file_path with
        | some p =>
          if p = "" then none
          else some ("https://image.tmdb.org/t/p/original" ++ p)
        | none => none))) ∧
    ((∃ x ∈ images, x.file_path = none) →
      get_image images = .error Exc.keyError) := by
  induction images with
  | nil =>
    constructor
    · intro _; rfl
    · rintro ⟨x, hx, _⟩; cases hx
  | cons x xs ih =>
    constructor
    · intro hall
      rcases hx : x.file_path with _ | p
      · exact absurd hx (hall x (List.mem_cons_self x xs))
      · have hrest := ih.1 (fun y hy => hall y (List.mem_cons_of_mem _ hy))
        simp only [get_image, hx, hrest, List.filterMap_cons]
        by_cases hp : p = "" <;> simp [hp]
    · rintro ⟨y, hy, hynone⟩
      rcases List.mem_cons.1 hy with rfl | hy2
      · simp only [get_image, hynone]
      · rcases hx : x.file_path with _ | p
        · simp only [get_image, hx]
        · have hrest := ih.2 ⟨y, hy2, hynone⟩
          simp only [get_image, hx, hrest]

/-- C6 witness: a non-empty path is prefixed, an empty path is excluded;
a later entry with no `file_path` key fails the whole call. -/
theorem get_image_spec_witness :
    get_image [{ file_path := some "/abc.jpg" }, { file_path := some "" }] =
      .ok ["https://image.tmdb.org/t/p/original/abc.jpg"] ∧
    get_image [{ file_path := some "/abc.jpg" }, { file_path := none }] =
      .error Exc.keyError :=
  ⟨(get_image_spec
      [{ file_path := some "/abc.jpg" }, { file_path := some "" }]).1
      (by decide),
   (get_image_spec
      [{ file_path := some "/abc.jpg" }, { file_path := none }]).2
      ⟨{ file_path := none }, by decide, rfl⟩⟩

/-! ### Further dict lemmas, for the `get` query construction -/

section DictLemmas2

variable {κ σ τ : Type} [BEq κ] [LawfulBEq κ]

theorem pyLookup_mem {d : PyDict κ τ} {k : κ} {v : τ}
    (h : pyLookup d k = some v) : (k, v) ∈ d := by
  induction d with
  | nil => exact absurd h (by simp [pyLookup])
  | cons p d ih =>
    obtain ⟨k1, v1⟩ := p
    simp only [pyLookup] at h
    by_cases hk : k1 == k
    · rw [if_pos hk] at h
      simp only [Option.some.injEq] at h
      subst h
      exact (eq_of_beq hk) ▸ List.mem_cons_self _ _
    · rw [if_neg hk] at h
      exact List.mem_cons_of_mem _ (ih h)

theorem pyLookup_eq_none_iff {d : PyDict κ τ} {k : κ} :
    pyLookup d k = none ↔ k ∉ d.map Prod.fst := by
  induction d with
  | nil => simp [pyLookup]
  | cons p d ih =>
    obtain ⟨k1, v1⟩ := p
    simp only [pyLookup, List.map_cons, List.mem_cons]
    by_cases hk : k1 == k
    · have h1 : k1 = k := eq_of_beq hk
      subst h1
      simp [hk]
    · have h1 : k1 ≠ k := fun hh => hk (by simp [hh])
      rw [if_neg hk, ih]
      constructor
      · intro hn h2
        rcases h2 with h2 | h2
        · exact h1 h2.symm
        · exact hn h2
      · intro hn h2
        exact hn (Or.inr h2)

theorem pyLookup_of_mem_nodup {d : PyDict κ τ} {k : κ} {v : τ}
    (hnd : (d.map Prod.fst).Nodup) (hmem : (k, v) ∈ d) :
    pyLookup d k = some v := by
  induction d with
  | nil => cases hmem
  | cons p d ih =>
    obtain ⟨k1, v1⟩ := p
    simp only [List.map_cons, List.nodup_cons] at hnd
    rcases List.mem_cons.1 hmem with h1 | h1
    · obtain ⟨h2, h3⟩ := Prod.mk.injEq .. ▸ h1
      subst h2; subst h3
      simp [pyLookup]
    · have hne : k1 ≠ k := by
        rintro rfl
        exact hnd.1 (List.mem_map.2 ⟨(k1, v), h1, rfl⟩)
      have : ¬(k1 == k) := fun hh => hne (eq_of_beq hh)
      simp only [pyLookup, if_neg this]
      exact ih hnd.2 h1

/-- The pairs kept by the `None`-dropping comprehension of `get`. -/
theorem mem_filterMap_some {params : PyDict κ (Option σ)} {k : κ} {v : σ} :
    (k, v) ∈ params.filterMap (fun kv => kv.2.map (fun v => (kv.1, v))) ↔
      (k, some v) ∈ params := by
  rw [List.mem_filterMap]
  constructor
  · rintro ⟨⟨k1, o⟩, hmem, heq⟩
    cases o with
    | none => exact absurd heq (by simp)
    | some w =>
      simp only [Option.map_some', Option.some.injEq, Prod.mk.injEq] at heq
      obtain ⟨rfl, rfl⟩ := heq
      exact hmem
  · intro hmem
    exact ⟨(k, some v), hmem, rfl⟩

theorem keys_filterMap_some_sublist (params : PyDict κ (Option σ)) :
    ((params.filterMap (fun kv => kv.2.map (fun v => (kv.1, v)))).map
      Prod.fst).Sublist (params.map Prod.fst) := by
  induction params with
  | nil => simp
  | cons kv params ih =>
    obtain ⟨k, o⟩ := kv
    cases o with
    | none =>
      simp only [List.filterMap_cons, Option.map_none', List.map_cons]
      exact ih.cons k
    | some v =>
      simp only [List.filterMap_cons, Option.map_some', List.map_cons]
      exact ih.cons₂ k

theorem mem_keys_filterMap_some {params : PyDict κ (Option σ)} {k : κ} :
    k ∈ (params.filterMap (fun kv => kv.2.map (fun v => (kv.1, v)))).map
      Prod.fst ↔ ∃ v, (k, some v) ∈ params := by
  constructor
  · intro h
    obtain ⟨⟨k1, v⟩, hmem, rfl⟩ := List.mem_map.1 h
    exact ⟨v, mem_filterMap_some.1 hmem⟩
  · rintro ⟨v, hmem⟩
    exact List.mem_map.2 ⟨(k, v), mem_filterMap_some.2 hmem, rfl⟩

end DictLemmas2

/-- C7 counterexample: `get` does not always put the static `api_key`
into the query — a caller-supplied non-absent `api_key` parameter
overrides it (`\x7b"api_key": self.api_key, **params\x7d` lets `params` win).
The transport here echoes the query it received as the response body. -/
theorem get_api_key_override_counterexample :
    get (fun _ q => ⟨200, q⟩) tmdb_base "k" "p" [("api_key", some "evil")] =
      .ok [("api_key", "evil")] ∧
    pyLookup ([("api_key", "evil")] : PyDict String String) "api_key" ≠
      some "k" := by
  refine ⟨rfl, ?_⟩
  decide

/-- C7 amended: `get` drops exactly the parameters whose value is absent
(never serializing them at all), sends a query that always carries an
`api_key` entry — with the static key's value unless the caller's params
supplied their own non-absent `api_key`, which overrides it — and fails
with `RemoteRequestError` carrying the response status and the request
path on any status >= 400, returning the decoded body otherwise. -/
theorem get_spec {β : Type}
    (client : String → PyDict String String → HttpResp β)
    (base api_key path : String) (params : PyDict String (Option String))
    (hnd : (params.map Prod.fst).Nodup) :
    (∀ k, k ≠ "api_key" →
      pyLookup (pyDictOfPairs (("api_key", api_key) ::
        params.filterMap (fun kv => kv.2.map (fun v => (kv.1, v))))) k =
        (pyLookup params k).bind id) ∧
    (pyLookup (pyDictOfPairs (("api_key", api_key) ::
        params.filterMap (fun kv => kv.2.map (fun v => (kv.1, v)))))
        "api_key" =
      some (match pyLookup params "api_key" with
        | some (some v) => v
        | _ => api_key)) ∧
    (∀ r, r = client (base ++ "/" ++ path)
        (pyDictOfPairs (("api_key", api_key) ::
          params.filterMap (fun kv => kv.2.map (fun v => (kv.1, v))))) →
      (400 ≤ r.status →
        get client base api_key path params =
          .error (.remoteRequestError r.status path)) ∧
      (r.status < 400 →
        get client base api_key path params = .ok r.body)) := by
  set filtered : PyDict String String :=
    params.filterMap (fun kv => kv.2.map (fun v => (kv.1, v))) with hfil
  have hndf : (filtered.map Prod.fst).Nodup :=
    (keys_filterMap_some_sublist params).nodup hnd
  have hquery : pyDictOfPairs (("api_key", api_key) :: filtered) =
      filtered.foldl (fun d p => pyDictInsert d p.1 p.2)
        [("api_key", api_key)] := by
    simp [pyDictOfPairs, pyDictInsert]
  refine ⟨fun k hk => ?_, ?_, fun r hr => ?_⟩
  · rcases hp : pyLookup params k with _ | o
    · have hnotin : k ∉ params.map Prod.fst := pyLookup_eq_none_iff.1 hp
      have hnotf : k ∉ filtered.map Prod.fst := by
        intro hmem
        obtain ⟨v, hv⟩ := mem_keys_filterMap_some.1 hmem
        exact hnotin (List.mem_map.2 ⟨(k, some v), hv, rfl⟩)
      have hne : ¬(("api_key" : String) == k) :=
        fun hh => hk (eq_of_beq hh).symm
      rw [hquery, pyLookup_foldl_insert_not_mem hnotf]
      simp [pyLookup, hne]
    · cases o with
      | none =>
        have hmemn : (k, (none : Option String)) ∈ params := pyLookup_mem hp
        have hnotf : k ∉ filtered.map Prod.fst := by
          intro hmem
          obtain ⟨v, hv⟩ := mem_keys_filterMap_some.1 hmem
          have h1 := pyLookup_of_mem_nodup hnd hv
          rw [hp] at h1
          exact absurd h1 (by simp)
        have hne : ¬(("api_key" : String) == k) :=
          fun hh => hk (eq_of_beq hh).symm
        rw [hquery, pyLookup_foldl_insert_not_mem hnotf]
        simp [pyLookup, hne]
      | some v =>
        have hmems : (k, some v) ∈ params := pyLookup_mem hp
        have hmf : (k, v) ∈ filtered := mem_filterMap_some.2 hmems
        rw [hquery, pyLookup_foldl_insert_mem hndf hmf]
        rfl
  · rcases hp : pyLookup params "api_key" with _ | o
    · have hnotin : "api_key" ∉ params.map Prod.fst :=
        pyLookup_eq_none_iff.1 hp
      have hnotf : "api_key" ∉ filtered.map Prod.fst := by
        intro hmem
        obtain ⟨v, hv⟩ := mem_keys_filterMap_some.1 hmem
        exact hnotin (List.mem_map.2 ⟨("api_key", some v), hv, rfl⟩)
      rw [hquery, pyLookup_foldl_insert_not_mem hnotf]
      simp [pyLookup]
    · cases o with
      | none =>
        have hnotf : "api_key" ∉ filtered.map Prod.fst := by
          intro hmem
          obtain ⟨v, hv⟩ := mem_keys_filterMap_some.1 hmem
          have h1 := pyLookup_of_mem_nodup hnd hv
          rw [hp] at h1
          exact absurd h1 (by simp)
        rw [hquery, pyLookup_foldl_insert_not_mem hnotf]
        simp [pyLookup]
      | some v =>
        have hmems : ("api_key", some v) ∈ params := pyLookup_mem hp
        have hmf : ("api_key", v) ∈ filtered := mem_filterMap_some.2 hmems
        rw [hquery, pyLookup_foldl_insert_mem hndf hmf]
  · subst hr
    constructor
    · intro hst
      simp only [get, ← hfil, if_pos hst]
    · intro hst
      have : ¬(400 ≤ (client (base ++ "/" ++ path)
          (pyDictOfPairs (("api_key", api_key) :: filtered))).status) :=
        Nat.not_le.2 hst
      simp only [get, ← hfil, if_neg this]

/-- C7 witness: the amended spec applied to a concrete transport (which
echoes its query as the body, status 200) and to a failing transport
(status 404), with one kept and one dropped parameter. -/
theorem get_spec_witness :
    (∀ k, k ≠ "api_key" →
      pyLookup (pyDictOfPairs (("api_key", "k") ::
        ([("a", some "1"), ("b", none)] : PyDict String
          (Option String)).filterMap
          (fun kv => kv.2.map (fun v => (kv.1, v))))) k =
        (pyLookup ([("a", some "1"), ("b", none)] : PyDict String
          (Option String)) k).bind id) ∧
    get (fun _ q => ⟨200, q⟩) tmdb_base "k" "p"
      [("a", some "1"), ("b", none)] =
      .ok [("api_key", "k"), ("a", "1")] ∧
    get (fun _ _ => ⟨(404 : Nat), ()⟩) tmdb_base "k" "p"
      [("a", some "1"), ("b", none)] =
      .error (.remoteRequestError 404 "p") := by
  have h1 := get_spec (fun _ q => (⟨200, q⟩ : HttpResp (PyDict String
    String))) tmdb_base "k" "p" [("a", some "1"), ("b", none)] (by decide)
  have h2 := get_spec (fun _ _ => (⟨404, ()⟩ : HttpResp Unit)) tmdb_base
    "k" "p" [("a", some "1"), ("b", none)] (by decide)
  refine ⟨h1.1, ?_, ?_⟩
  · have h3 := (h1.2.2 _ rfl).2 (by decide)
    rw [h3]
    rfl
  · exact (h2.2.2 _ rfl).1 (by decide)

/-- C8: the status of a constructed movie is FINISHED exactly when the
remote status string is `"Released"`, and PLANNED for every other remote
status string. -/
theorem mkMovie_status (lng : String) (movie : MovieDetails) :
    ∀ m, mkMovie lng movie = .ok m →
      ((m.status = MovieStatus.FINISHED ↔ movie.status = "Released") ∧
       (movie.status ≠ "Released" → m.status = MovieStatus.PLANNED)) := by
  intro m hm
  have h := (mkMovie_ok_fields hm).2.1
  constructor
  · constructor
    · intro hf
      by_contra hne
      rw [h, if_neg hne] at hf
      exact absurd hf (by simp)
    · intro hr
      rw [h, if_pos hr]
  · intro hne
    rw [h, if_neg hne]

/-- Detail payload with remote status `"Post Production"`. -/
def wDetailsPP : MovieDetails := { wDetails with status := "Post Production" }

/-- The single-locale movie built from `wDetails` for locale `en`. -/
def wMovieSingle : Movie :=
  { wMergedMovie with translations := [("en", wTranslation)] }

/-- The movie built from `wDetailsPP`: PLANNED status. -/
def wMoviePP : Movie := { wMovieSingle with status := .PLANNED }

/-- C8 witness: a `"Post Production"` payload yields a PLANNED movie. -/
theorem mkMovie_status_witness :
    ((wMoviePP.status = MovieStatus.FINISHED ↔
        wDetailsPP.status = "Released") ∧
     (wDetailsPP.status ≠ "Released" →
        wMoviePP.status = MovieStatus.PLANNED)) ∧
    wMoviePP.status = MovieStatus.PLANNED :=
  ⟨mkMovie_status "en" wDetailsPP wMoviePP (by rfl), rfl⟩

/-- C9: the genre list of a constructed movie is the image under the
static `genre_map` table of exactly those remote numeric codes present in
the table, in payload order; code 28 maps to ACTION and a code absent
from the table (such as 999999) is dropped with no error. -/
theorem mkMovie_genres (lng : String) (movie : MovieDetails) :
    ∀ m, mkMovie lng movie = .ok m →
      (m.genres =
        movie.genres.filterMap (fun x => pyLookup genre_map x.id) ∧
       pyLookup genre_map 28 = some Genre.ACTION ∧
       pyLookup genre_map 999999 = none) := by
  intro m hm
  exact ⟨(mkMovie_ok_fields hm).2.2.1, by decide, by decide⟩

/-- Detail payload carrying genre codes 28 (known) and 999999
(unknown). -/
def wDetails9 : MovieDetails :=
  { wDetails with genres := [⟨28⟩, ⟨999999⟩] }

/-- The movie built from `wDetails9`: only ACTION survives. -/
def wMovie9 : Movie := { wMovieSingle with genres := [.ACTION] }

/-- C9 witness: `mkMovie` on codes `[28, 999999]` succeeds and keeps
exactly ACTION. -/
theorem mkMovie_genres_witness :
    (wMovie9.genres =
      wDetails9.genres.filterMap (fun x => pyLookup genre_map x.id) ∧
     pyLookup genre_map 28 = some Genre.ACTION ∧
     pyLookup genre_map 999999 = none) ∧
    wMovie9.genres = [Genre.ACTION] :=
  ⟨mkMovie_genres "en" wDetails9 wMovie9 (by rfl), rfl⟩

/-- C10: each `identify_*` operation mutates the caller-supplied
`language` list in place: when the entity's original language (read from
the search result, or from the `PartialShow` argument for shows) is not
in the list it is appended — the caller observes a strictly longer
list — and otherwise the list is left unchanged.  For `identify_show`
the mutation happens only after the `external_id` subscript on line 155
succeeds. -/
theorem identify_language_mutation (remote : Remote) (nm : String)
    (year se ep ab : Option Int) (L : List String) (ps : PartialShow)
    (respM respT : SearchResponse) (sm st : SearchResult)
    (restM restT : List SearchResult)
    (hm : remote.search_movie nm year = .ok respM)
    (hmr : respM.results = sm :: restM)
    (ht : remote.search_tv nm = .ok respT)
    (htr2 : respT.results = st :: restT) :
    ((identify_movie remote nm year L).2 =
      if L.contains sm.original_language then L
      else L ++ [sm.original_language]) ∧
    (∀ mid, pyLookup ps.external_id "themoviedatabase" = some mid →
      (identify_show remote ps L).2 =
        if L.contains ps.original_language then L
        else L ++ [ps.original_language]) ∧
    ((identify_episode remote nm se ep ab L).2 =
      if L.contains st.original_language then L
      else L ++ [st.original_language]) := by
  refine ⟨?_, fun mid hmid => ?_, ?_⟩
  · simp only [identify_movie, hm, hmr]
  · simp only [identify_show, hmid]
  · simp only [identify_episode, ht, htr2]

/-- A `PartialShow` argument carrying the provider id the code
subscripts. -/
def wPartialShow : PartialShow :=
  { original_language := "ja"
    external_id := [("themoviedatabase", { id := "7", link := "x" })] }

/-- C10 witness: with original language `ja`, the caller's `["en"]` list
comes back as `["en", "ja"]` from all three operations, and a list
already containing `ja` comes back unchanged. -/
theorem identify_language_mutation_witness :
    (identify_movie wRemote "n" none ["en"]).2 = ["en", "ja"] ∧
    (identify_show wRemote wPartialShow ["en"]).2 = ["en", "ja"] ∧
    (identify_episode wRemote "n" none none none ["en"]).2 =
      ["en", "ja"] ∧
    (identify_movie wRemote "n" none ["ja", "en"]).2 = ["ja", "en"] := by
  have h1 := identify_language_mutation wRemote "n" none none none none
    ["en"] wPartialShow ⟨[wSearchResult]⟩ ⟨[wSearchResult]⟩ wSearchResult
    wSearchResult [] [] rfl rfl rfl rfl
  have h2 := identify_language_mutation wRemote "n" none none none none
    ["ja", "en"] wPartialShow ⟨[wSearchResult]⟩ ⟨[wSearchResult]⟩
    wSearchResult wSearchResult [] [] rfl rfl rfl rfl
  refine ⟨?_, ?_, ?_, ?_⟩
  · rw [h1.1]; rfl
  · rw [h1.2.1 _ rfl]; rfl
  · rw [h1.2.2]; rfl
  · rw [h2.1]; rfl

end Tmdb
